import Mathlib

/-!
Verification of the NewsGenie query-routing assistant (`src/app.py`).

The development shallowly embeds the parts of the program the specification
talks about:

* text is modelled as a list of Unicode codepoints (`Str := List Nat`);
  Python's substring operator `in` becomes `occursIn`, and `str.lower`
  becomes `toLowerStr` (ASCII case mapping, which covers every keyword the
  router compares against);
* the router `route_query_node` is translated line by line from the source,
  operating on a `RouteState` record mirroring the `NewsGenieState` fields it
  touches;
* the SQLite-backed `SessionManager` becomes an append-only list of `Row`s;
  `ORDER BY timestamp DESC LIMIT ?` becomes an insertion sort by descending
  timestamp followed by `take` (ISO timestamp strings compare
  lexicographically consistently with time, so they are modelled as `Nat`);
* effectful functions that can raise (`process_user_request`,
  `emergency_openai_qa`) are given explicit outcome parameters for the
  network / database calls they make, and return `Except` where the source
  can propagate an exception.
-/

/-- Text as a list of Unicode codepoints. -/
abbrev Str := List Nat

/-- Convert a Lean string literal to its codepoint list (used to write
concrete queries and keywords). -/
def str (s : String) : Str := s.toList.map Char.toNat

/-- Python's ASCII lowercase mapping on a single codepoint, as performed by
`str.lower` on the ASCII range (the only range the router's keywords live in). -/
def lowerCp (n : Nat) : Nat := if 65 ≤ n ∧ n ≤ 90 then n + 32 else n

/-- Model of Python's `s.lower()`. -/
def toLowerStr (s : Str) : Str := s.map lowerCp

/-- Does `needle` start `haystack`? Helper for the substring test. -/
def startsWith : Str → Str → Bool
  | [], _ => true
  | _ :: _, [] => false
  | a :: p, b :: s => a == b && startsWith p s

/-- Model of Python's substring operator: `occursIn needle haystack` is
`needle in haystack` — a contiguous-substring test. -/
def occursIn (needle : Str) : Str → Bool
  | [] => startsWith needle []
  | s@(_ :: rest) => startsWith needle s || occursIn needle rest

/-- The router's slice of `NewsGenieState`: `query`, the optional `category`,
and the `route` field (initialised to `None` by `process_user_request`). -/
structure RouteState where
  query : Str
  category : Option Str
  route : Option String
  deriving Repr, DecidableEq

/-- The fixed category list from `route_query_node`. -/
def news_categories : List Str :=
  [str "business", str "entertainment", str "general", str "health",
   str "science", str "sports", str "technology"]

/-- Keyword list for explicit search requests. -/
def search_keywords : List Str := [str "search", str "find", str "lookup", str "browse"]

/-- Question words checked by the router. -/
def question_words : List Str :=
  [str "who", str "what", str "when", str "where", str "why", str "how"]

/-- Auxiliaries / verbs checked by the router. -/
def verbs_auxiliaries : List Str :=
  [str "is", str "are", str "can", str "could", str "will", str "would",
   str "should", str "do", str "does", str "did"]

/-- Instruction verbs checked by the router. -/
def instructions : List Str := [str "tell", str "explain", str "describe", str "define"]

/-- The router's local `explicit_search`: the lowered query contains one of
the search keywords. -/
def explicitSearch (query : Str) : Bool := search_keywords.any (fun k => occursIn k query)

/-- The router's local `proper_question`: a question word together with an
auxiliary / verb, or an instruction verb. -/
def properQuestion (query : Str) : Bool :=
  (question_words.any (fun qw => occursIn qw query) &&
    verbs_auxiliaries.any (fun va => occursIn va query)) ||
  instructions.any (fun inst => occursIn inst query)

/-- Shallow embedding of `route_query_node` (src/app.py lines 282–326).
`state.get("category", "") or ""` maps `None` to the empty string; both the
query and the category are lowercased before any rule runs.  The locals
`explicit_search` and `proper_question` are the top-level `explicitSearch` /
`properQuestion` above.  The rule-4 `for`/`break` loop is the `find?` over
`news_categories`; when the loop would fall through without a `break` the
state is returned with `route` untouched, exactly as in the source. -/
def route_query_node (s : RouteState) : RouteState :=
  let query := toLowerStr s.query
  let category := toLowerStr (s.category.getD [])
  if explicitSearch query then
    { s with route := some "search_web" }
  else if properQuestion query then
    { s with route := some "answer_question" }
  else if category ∈ news_categories && !properQuestion query && !explicitSearch query then
    { s with route := some "get_news" }
  else if news_categories.any (fun cat => occursIn cat query) && !properQuestion query &&
      !explicitSearch query then
    match news_categories.find? (fun cat => occursIn cat query) with
    | some cat => { s with category := some cat, route := some "get_news" }
    | none => s
  else
    { s with route := some "search_web" }

/-- One row of the SQLite `sessions` table.  The source stores the timestamp
as `datetime.now().isoformat()` TEXT; ISO-8601 strings compare
lexicographically in chronological order, so the timestamp is modelled as a
`Nat`.  `metadata` is the JSON-serialised string. -/
structure Row where
  session_id : String
  timestamp : Nat
  query : String
  category : String
  response : String
  metadata : String
  deriving Repr, DecidableEq

/-- Shallow embedding of `SessionManager.save_interaction` (src/app.py
lines 72–81): one `INSERT` appending a row; `ts` is the `datetime.now()`
reading at the time of the call. -/
def save_interaction (db : List Row) (session_id : String) (ts : Nat)
    (query category response metadata : String) : List Row :=
  db ++ [⟨session_id, ts, query, category, response, metadata⟩]

/-- The `ORDER BY timestamp DESC` comparison: `a` sorts no later than `b`. -/
def tsDesc (a b : Row) : Prop := b.timestamp ≤ a.timestamp

instance : DecidableRel tsDesc := fun _ b => Nat.decLe b.timestamp _

instance : IsTotal Row tsDesc := ⟨fun a b => Nat.le_total b.timestamp a.timestamp⟩

instance : IsTrans Row tsDesc := ⟨fun _ _ _ hab hbc => Nat.le_trans hbc hab⟩

/-- Shallow embedding of `SessionManager.get_session_history` (src/app.py
lines 83–106): `SELECT … WHERE session_id = ? ORDER BY timestamp DESC
LIMIT ?`.  The source projects out the `session_id` column when building the
result dicts; the model keeps the whole row, which only adds information. -/
def get_session_history (db : List Row) (session_id : String) (limit : Nat) : List Row :=
  (List.insertionSort tsDesc (db.filter (fun r => r.session_id == session_id))).take limit

/-- Shallow embedding of the `Clear History` button handler (src/app.py
lines 543–545): it assigns `st.session_state.session_history = []` and
touches nothing else — in particular it issues no SQL, so the durable store
`db` is returned unchanged. -/
def clear_history_button {α : Type} (db : List Row) (ui : List α) : List Row × List α :=
  (db, [])

/-- Outcome of the `requests.post` call inside `emergency_openai_qa`:
a 200 reply whose JSON parses to `content`, a non-200 reply with body
`text`, or a raised exception rendered as `msg` (this case also covers a
200 reply whose JSON lacks the expected fields, since that raises inside
the same `try`). -/
inductive HttpOutcome where
  | success (content : String)
  | httpError (status : Nat) (text : String)
  | exn (msg : String)
  deriving Repr, DecidableEq

/-- Shallow embedding of `emergency_openai_qa` (src/app.py lines 110–140),
with the network call abstracted into `outcome`. -/
def emergency_openai_qa (question : String) (outcome : HttpOutcome) : String :=
  match outcome with
  | .success content => content
  | .httpError status text => "API Error " ++ toString status ++ ": " ++ text.take 100 ++ "..."
  | .exn e => "Connection Error: " ++ e.take 100 ++ "..."

/-- Substring test on Lean strings (Python's `in`), via the codepoint model. -/
def occursInS (needle haystack : String) : Bool := occursIn (str needle) (str haystack)

/-- Outcomes of the three effectful calls `process_user_request` makes:
`wf` is the combined history fetch + `newsgenie_app.invoke` + response
extraction inside the `try` block, `save1` the `save_interaction` call inside
the `try`, and `save2` the `save_interaction` call inside the `except`
handler. -/
structure RequestEffects where
  wf : Except String String
  save1 : Except String Unit
  save2 : Except String Unit

/-- The generic error response built in the `except` branch of
`process_user_request`. -/
def error_response (e : String) : String :=
  "I encountered an error processing your request: " ++ e.take 100 ++
    ". Please try rephrasing your question."

/-- Shallow embedding of `process_user_request` (src/app.py lines 420–464).
The `try` block runs the workflow and then `save_interaction`; any exception
from either lands in the `except` handler, which builds `error_response` and
calls `save_interaction` again — that second call is not wrapped, so its
failure propagates out of the function (`Except.error`). -/
def process_user_request (eff : RequestEffects) : Except String String :=
  let tryResult : Except String String :=
    match eff.wf with
    | .error e => .error e
    | .ok response =>
      match eff.save1 with
      | .error e => .error e
      | .ok _ => .ok response
  match tryResult with
  | .ok response => .ok response
  | .error e =>
    match eff.save2 with
    | .ok _ => .ok (error_response e)
    | .error e2 => .error e2

example : (route_query_node ⟨str "Search for cats", none, none⟩).route = some "search_web" := by
  decide

example : (route_query_node ⟨str "what is inflation", none, none⟩).route =
    some "answer_question" := by decide

example : (route_query_node ⟨str "", some (str "sports"), none⟩).route = some "get_news" := by
  decide

example : (route_query_node ⟨str "sports business", none, none⟩).category =
    some (str "business") := by decide

example : (route_query_node ⟨str "hello there", none, none⟩).route = some "search_web" := by
  decide

/-- C4: any query whose lowercased text contains one of the search keywords
"search", "find", "lookup", "browse" is routed to `search_web` (the spec's
`search` route), whatever the category and the rest of the query. -/
theorem router_search_keyword_dominates (s : RouteState)
    (h : ∃ k ∈ search_keywords, occursIn k (toLowerStr s.query) = true) :
    (route_query_node s).route = some "search_web" := by
  obtain ⟨k, hk, hocc⟩ := h
  have hes : explicitSearch (toLowerStr s.query) = true :=
    List.any_eq_true.2 ⟨k, hk, hocc⟩
  simp [route_query_node, hes]

theorem router_search_keyword_dominates_witness :
    (route_query_node ⟨str "What is the best way to search for housing", some (str "sports"),
      none⟩).route = some "search_web" :=
  router_search_keyword_dominates _ ⟨str "search", by decide, by decide⟩

/-- C5: a query with no search keyword that either contains a question word
together with an auxiliary / verb, or contains an instruction verb, is routed
to `answer_question` (the spec's `qa` route), for every category value. -/
theorem router_question_routes_qa (s : RouteState)
    (hns : ∀ k ∈ search_keywords, occursIn k (toLowerStr s.query) = false)
    (hq : ((∃ qw ∈ question_words, occursIn qw (toLowerStr s.query) = true) ∧
           (∃ va ∈ verbs_auxiliaries, occursIn va (toLowerStr s.query) = true)) ∨
          (∃ inst ∈ instructions, occursIn inst (toLowerStr s.query) = true)) :
    (route_query_node s).route = some "answer_question" := by
  have hes : explicitSearch (toLowerStr s.query) = false := by
    apply List.any_eq_false.2
    intro k hk
    simp [hns k hk]
  have hpq : properQuestion (toLowerStr s.query) = true := by
    unfold properQuestion
    rcases hq with ⟨⟨qw, hqw, hqw2⟩, ⟨va, hva, hva2⟩⟩ | ⟨inst, hinst, hinst2⟩
    · simp only [Bool.or_eq_true, Bool.and_eq_true]
      exact Or.inl ⟨List.any_eq_true.2 ⟨qw, hqw, hqw2⟩, List.any_eq_true.2 ⟨va, hva, hva2⟩⟩
    · simp only [Bool.or_eq_true]
      exact Or.inr (List.any_eq_true.2 ⟨inst, hinst, hinst2⟩)
  simp [route_query_node, hes, hpq]

theorem router_question_routes_qa_witness :
    (route_query_node ⟨str "what is inflation", some (str "sports"), none⟩).route =
      some "answer_question" :=
  router_question_routes_qa _ (by decide)
    (Or.inl ⟨⟨str "what", by decide, by decide⟩, ⟨str "is", by decide, by decide⟩⟩)

/-- C6: the router always resolves a route: for every input state the output
`route` field is one of `search_web`, `answer_question`, `get_news`; in the
rule-4 branch the category-extraction loop always finds a match (its guard
guarantees one), so the no-route state is unreachable. -/
theorem router_always_resolves (s : RouteState) :
    (route_query_node s).route = some "search_web" ∨
    (route_query_node s).route = some "answer_question" ∨
    (route_query_node s).route = some "get_news" := by
  unfold route_query_node
  by_cases h1 : explicitSearch (toLowerStr s.query) = true
  · simp [h1]
  · by_cases h2 : properQuestion (toLowerStr s.query) = true
    · simp [h1, h2]
    · by_cases h3 : toLowerStr (s.category.getD []) ∈ news_categories
      · simp [h1, h2, h3]
      · by_cases h4 :
          news_categories.any (fun cat => occursIn cat (toLowerStr s.query)) = true
        · obtain ⟨cat, hcat, hocc⟩ := List.any_eq_true.1 h4
          have hfind : (news_categories.find? (fun cat =>
              occursIn cat (toLowerStr s.query))).isSome := by
            exact List.find?_isSome.2 ⟨cat, hcat, hocc⟩
          obtain ⟨c0, hc0⟩ := Option.isSome_iff_exists.1 hfind
          simp [h1, h2, h3, h4, hc0]
        · simp [h1, h2, h3, h4]

/-- C9: in the rule-4 branch (no search keyword, no question pattern, the
category argument not in the fixed set, but some category name occurring in
the query text) the resolved category is the first matching name in the
fixed list order `[business, entertainment, general, health, science,
sports, technology]`: the chosen name matches, every name listed before it
does not, and the route is `get_news`. -/
theorem router_rule4_category_list_order (s : RouteState)
    (h1 : explicitSearch (toLowerStr s.query) = false)
    (h2 : properQuestion (toLowerStr s.query) = false)
    (h3 : toLowerStr (s.category.getD []) ∉ news_categories)
    (h4 : ∃ cat ∈ news_categories, occursIn cat (toLowerStr s.query) = true) :
    (route_query_node s).route = some "get_news" ∧
    ∃ pre post cat, news_categories = pre ++ cat :: post ∧
      (route_query_node s).category = some cat ∧
      occursIn cat (toLowerStr s.query) = true ∧
      ∀ c ∈ pre, occursIn c (toLowerStr s.query) = false := by
  obtain ⟨cat0, hcat0, hocc0⟩ := h4
  have h4' : news_categories.any (fun cat => occursIn cat (toLowerStr s.query)) = true :=
    List.any_eq_true.2 ⟨cat0, hcat0, hocc0⟩
  have hfind : (news_categories.find? (fun cat => occursIn cat (toLowerStr s.query))).isSome :=
    List.find?_isSome.2 ⟨cat0, hcat0, hocc0⟩
  obtain ⟨c0, hc0⟩ := Option.isSome_iff_exists.1 hfind
  obtain ⟨hc0p, pre, post, hsplit, hpre⟩ := List.find?_eq_some.1 hc0
  refine ⟨by simp [route_query_node, h1, h2, h3, h4', hc0], pre, post, c0, hsplit, ?_, hc0p, ?_⟩
  · simp [route_query_node, h1, h2, h3, h4', hc0]
  · intro c hcpre
    have := hpre c hcpre
    simpa using this

theorem router_rule4_category_list_order_witness :
    ((route_query_node ⟨str "sports business", none, none⟩).route = some "get_news" ∧
     ∃ pre post cat, news_categories = pre ++ cat :: post ∧
       (route_query_node ⟨str "sports business", none, none⟩).category = some cat ∧
       occursIn cat (toLowerStr (str "sports business")) = true ∧
       ∀ c ∈ pre, occursIn c (toLowerStr (str "sports business")) = false) ∧
    (route_query_node ⟨str "sports business", none, none⟩).category = some (str "business") :=
  ⟨router_rule4_category_list_order _ (by decide) (by decide) (by decide)
      ⟨str "business", by decide, by decide⟩,
    by decide⟩

/-- Lowercasing a codepoint is idempotent. -/
theorem lowerCp_idem (n : Nat) : lowerCp (lowerCp n) = lowerCp n := by
  unfold lowerCp
  split
  · split <;> omega
  · rfl

/-- Lowercasing a text is idempotent. -/
theorem toLowerStr_idem (x : Str) : toLowerStr (toLowerStr x) = toLowerStr x := by
  unfold toLowerStr
  rw [List.map_map]
  exact List.map_congr_left (fun a _ => lowerCp_idem a)

/-- The lowered category seen by the router is unchanged when the input
category was already lowercased. -/
theorem lowerCat_eq (c : Option Str) :
    toLowerStr ((c.map toLowerStr).getD []) = toLowerStr (c.getD []) := by
  cases c <;> simp [toLowerStr_idem]

/-- C10: routing is case-insensitive in both arguments: the route computed
for a state equals the route computed after lowercasing the query and the
category, because `route_query_node` lowercases both before evaluating any
rule. -/
theorem router_case_insensitive (s : RouteState) :
    (route_query_node s).route =
      (route_query_node ⟨toLowerStr s.query, s.category.map toLowerStr, s.route⟩).route := by
  unfold route_query_node
  simp only [toLowerStr_idem, lowerCat_eq]
  by_cases h1 : explicitSearch (toLowerStr s.query) = true
  · simp [h1]
  · by_cases h2 : properQuestion (toLowerStr s.query) = true
    · simp [h1, h2]
    · by_cases h3 : toLowerStr (s.category.getD []) ∈ news_categories
      · simp [h1, h2, h3]
      · by_cases h4 :
          news_categories.any (fun cat => occursIn cat (toLowerStr s.query)) = true
        · cases hc0 : news_categories.find? (fun cat => occursIn cat (toLowerStr s.query)) with
          | some c0 => simp [h1, h2, h3, h4, hc0]
          | none => simp [h1, h2, h3, h4, hc0]
        · simp [h1, h2, h3, h4]

/-- Every row returned by `get_session_history` carries the requested
session id: the `WHERE session_id = ?` filter scopes the result. -/
theorem session_history_scoped (db : List Row) (sid : String) (limit : Nat) :
    ∀ row ∈ get_session_history db sid limit, row.session_id = sid := by
  intro row hrow
  have h1 : row ∈ List.insertionSort tsDesc (db.filter (fun x => x.session_id == sid)) :=
    List.mem_of_mem_take hrow
  have h2 : row ∈ db.filter (fun x => x.session_id == sid) :=
    (List.mem_insertionSort tsDesc).1 h1
  have h3 := (List.mem_filter.1 h2).2
  exact eq_of_beq h3

/-- C7: saving an interaction whose timestamp is later than every existing
row of that session and then asking for the most recent history entry
returns exactly the just-saved interaction, with all fields (in particular
`query` and `response`) equal to those passed to `save_interaction`. -/
theorem save_then_get_history_one (db : List Row) (sid : String) (ts : Nat)
    (q c r m : String)
    (hfresh : ∀ row ∈ db, row.session_id = sid → row.timestamp < ts) :
    get_session_history (save_interaction db sid ts q c r m) sid 1 =
      [⟨sid, ts, q, c, r, m⟩] := by
  have hfilter : (save_interaction db sid ts q c r m).filter (fun x => x.session_id == sid)
      = db.filter (fun x => x.session_id == sid) ++ [⟨sid, ts, q, c, r, m⟩] := by
    simp [save_interaction, List.filter_append]
  set new : Row := ⟨sid, ts, q, c, r, m⟩ with hnewdef
  set l : List Row := db.filter (fun x => x.session_id == sid) ++ [new] with hldef
  have hperm := List.perm_insertionSort tsDesc l
  have hsorted := List.sorted_insertionSort tsDesc l
  have hnew_mem : new ∈ List.insertionSort tsDesc l := by
    rw [List.mem_insertionSort]
    simp [hldef]
  unfold get_session_history
  rw [hfilter]
  cases hs : List.insertionSort tsDesc l with
  | nil =>
    rw [hs] at hnew_mem
    cases hnew_mem
  | cons a t =>
    have ha_mem : a ∈ l := hperm.subset (by rw [hs]; exact List.mem_cons_self a t)
    have ha_eq : a = new := by
      rcases List.mem_append.1 ha_mem with hfa | hna
      · exfalso
        have hsid : a.session_id = sid := eq_of_beq (List.mem_filter.1 hfa).2
        have hdb : a ∈ db := (List.mem_filter.1 hfa).1
        have hlt : a.timestamp < ts := hfresh a hdb hsid
        rw [hs] at hnew_mem hsorted
        rcases List.mem_cons.1 hnew_mem with hne | hnt
        · have : a.timestamp = ts := by rw [← hne]
          omega
        · have hrel : tsDesc a new := (List.sorted_cons.1 hsorted).1 new hnt
          have : ts ≤ a.timestamp := hrel
          omega
      · simpa using hna
    simp [ha_eq]

theorem save_then_get_history_one_witness :
    get_session_history (save_interaction [] "s1" 3 "what is inflation" "" "resp" "{}") "s1" 1 =
      [⟨"s1", 3, "what is inflation", "", "resp", "{}"⟩] :=
  save_then_get_history_one [] "s1" 3 "what is inflation" "" "resp" "{}" (by simp)

/-- C8: an interaction saved under session `s1` never appears in the history
retrieved for a different session `s2`, for any limit: retrieval is scoped to
exactly the requested session id. -/
theorem no_cross_session_leakage (db : List Row) (s1 s2 : String) (ts : Nat)
    (q c r m : String) (limit : Nat) (hne : s1 ≠ s2) :
    (⟨s1, ts, q, c, r, m⟩ : Row) ∉
      get_session_history (save_interaction db s1 ts q c r m) s2 limit := by
  intro hmem
  have := session_history_scoped (save_interaction db s1 ts q c r m) s2 limit _ hmem
  exact hne this

theorem no_cross_session_leakage_witness :
    (⟨"s1", 5, "q", "c", "resp", "{}"⟩ : Row) ∉
      get_session_history (save_interaction [] "s1" 5 "q" "c" "resp" "{}") "s2" 10 :=
  no_cross_session_leakage [] "s1" "s2" 5 "q" "c" "resp" "{}" 10 (by decide)

/-- C1 counterexample: with the workflow returning the response "All good"
and both `save_interaction` calls failing (the same broken database fails
twice), `process_user_request` does not return the handler's response — the
persistence failure escapes as an exception. -/
theorem persistence_failure_escapes :
    process_user_request ⟨.ok "All good", .error "database is locked",
        .error "database is locked"⟩ ≠ .ok "All good" ∧
    process_user_request ⟨.ok "All good", .error "database is locked",
        .error "database is locked"⟩ = .error "database is locked" := by
  refine ⟨?_, rfl⟩
  intro hcontra
  exact Except.noConfusion hcontra

/-- C1 amended: when the handler has produced a response and the first
`save_interaction` fails, `process_user_request` does not return that
response; the exception is caught, the generic error string embedding the
truncated error message is built, and a second `save_interaction` is
attempted with it — if that second save succeeds the error string is
returned, and if it fails too the exception propagates out. -/
theorem persistence_failure_behavior (eff : RequestEffects) (r e : String)
    (hwf : eff.wf = .ok r) (hs1 : eff.save1 = .error e) :
    process_user_request eff = (match eff.save2 with
      | .ok _ => .ok (error_response e)
      | .error e2 => .error e2) := by
  cases eff with
  | mk wf s1 s2 =>
    simp only at hwf hs1
    subst hwf
    subst hs1
    rfl

theorem persistence_failure_behavior_witness :
    process_user_request ⟨.ok "All good", .error "db locked", .ok ()⟩ =
      .ok (error_response "db locked") :=
  persistence_failure_behavior ⟨.ok "All good", .error "db locked", .ok ()⟩
    "All good" "db locked" rfl rfl

set_option maxRecDepth 8000 in
/-- C2 counterexample: under an adapter failure the QA fallback string does
not contain the original query — it is only the marked connection error with
the truncated message. -/
theorem qa_fallback_lacks_query :
    occursInS "what is glx"
      (emergency_openai_qa "what is glx" (.exn "connection timeout")) = false := by
  decide

/-- C2 amended: on any exception raised during the completion call the QA
handler returns exactly the clearly marked string
`"Connection Error: " ++ first 100 characters of the error ++ "..."` — it
contains the truncated error message but not, in general, the original
query, and the handler never raises (it is a total function into strings). -/
theorem qa_fallback_marks_error (q e : String) :
    emergency_openai_qa q (.exn e) = "Connection Error: " ++ e.take 100 ++ "..." := rfl

/-- C3 counterexample: with one interaction of session `s1` in the durable
store, pressing `Clear History` and then asking for that session's history
does not return an empty sequence. -/
theorem clear_button_not_durable :
    get_session_history
      (clear_history_button [(⟨"s1", 1, "q", "c", "resp", "{}"⟩ : Row)] ([] : List Row)).1
      "s1" 5 ≠ [] := by
  decide

/-- C3 amended: the `Clear History` button empties only the in-memory UI
history list; it deletes nothing from the durable store, so a subsequent
`get_history(session_id, N)` returns exactly what it returned before the
clear, for every session and limit. -/
theorem clear_button_only_ui {α : Type} (db : List Row) (ui : List α) (sid : String)
    (limit : Nat) :
    (clear_history_button db ui).2 = [] ∧
    get_session_history (clear_history_button db ui).1 sid limit =
      get_session_history db sid limit :=
  ⟨rfl, rfl⟩
